import Mathlib

/-!
Verification of the pdfx reference-extraction core against its source
(`pdfx/__init__.py` and `pdfx/backends.py`).  Python values are embedded
shallowly: strings become `List Char`/`String`, byte strings become
`List (Fin 256)`, nested metadata structures become an inductive type, and
fallible Python code returns `Except`.
-/

namespace Pdfx

/-! ## Python string stripping (`str.strip()`), used by `metadata_key_cleanup` -/

/-- Python whitespace characters recognised by `str.strip()` (ASCII subset). -/
def isPySpace (c : Char) : Bool :=
  c = ' ' || c = '\t' || c = '\n' || c = '\x0d' || c = '\x0b' || c = '\x0c'

/-- Remove leading whitespace. -/
def stripLeft (l : List Char) : List Char := l.dropWhile isPySpace

/-- Remove trailing whitespace. -/
def stripRight (l : List Char) : List Char := (stripLeft l.reverse).reverse

/-- Python `s.strip()`: remove leading and trailing whitespace. -/
def pyStrip (l : List Char) : List Char := stripRight (stripLeft l)

theorem dropWhile_head_false (p : Char → Bool) :
    ∀ (l : List Char) a t, l.dropWhile p = a :: t → p a = false := by
  intro l
  induction l with
  | nil => intro a t h; simp [List.dropWhile] at h
  | cons x xs ih =>
    intro a t h
    by_cases hx : p x
    · rw [List.dropWhile_cons_of_pos hx] at h
      exact ih a t h
    · rw [List.dropWhile_cons_of_neg hx] at h
      cases h
      simpa using hx

theorem dropWhile_append_singleton (p : Char → Bool) (a : Char) (h : ¬ p a) :
    ∀ l : List Char, (l ++ [a]).dropWhile p = l.dropWhile p ++ [a] := by
  intro l
  induction l with
  | nil => simp [List.dropWhile_cons, h]
  | cons x t ih =>
    by_cases hx : p x
    · simp [List.dropWhile_cons, hx, ih]
    · simp [List.dropWhile_cons, hx]

theorem stripRight_stripRight (l : List Char) :
    stripRight (stripRight l) = stripRight l := by
  simp [stripRight, stripLeft, List.dropWhile_idempotent]

/-- After `stripLeft`, the head (if any) is not whitespace, so a later
`stripLeft` is void even after trailing whitespace has been removed. -/
theorem stripLeft_stripRight_stripLeft (l : List Char) :
    stripLeft (stripRight (stripLeft l)) = stripRight (stripLeft l) := by
  rcases h : stripLeft l with _ | ⟨a, t⟩
  · simp [stripRight, stripLeft, h]
  · have ha : isPySpace a = false := dropWhile_head_false isPySpace l a t h
    have hcons : stripRight (a :: t) = a :: stripRight t := by
      simp only [stripRight, stripLeft, List.reverse_cons]
      rw [dropWhile_append_singleton isPySpace a (by simp [ha])]
      simp
    rw [hcons, stripLeft, List.dropWhile_cons_of_neg (by simp [ha])]

/-- `str.strip()` is idempotent. -/
theorem pyStrip_pyStrip (l : List Char) : pyStrip (pyStrip l) = pyStrip l := by
  unfold pyStrip
  rw [stripLeft_stripRight_stripLeft, stripRight_stripRight]

/-! ## Metadata model and `metadata_key_cleanup` / `metadata_cleanup`
(`backends.py` lines 151-175)

A metadata value is a Python string, list, tuple, dict (modelled as an
association list preserving insertion order) or any other scalar.  For
scalars other than strings/sequences/dicts the cleanup code only ever
observes their truthiness, so they are modelled by it. -/

inductive MVal where
  | s (t : List Char)
  | lst (items : List MVal)
  | tup (items : List MVal)
  | dict (entries : List (String × MVal))
  | other (truthy : Bool)

/-- Python truthiness of a metadata value, as observed by `elif item:`. -/
def MVal.truthy : MVal → Bool
  | .s t => ¬ t.isEmpty
  | .lst items => ¬ items.isEmpty
  | .tup items => ¬ items.isEmpty
  | .dict es => ¬ es.isEmpty
  | .other b => b

/-- The per-item filter of the list/tuple branch of `metadata_key_cleanup`
(`backends.py` lines 158-164): string items are stripped and kept when the
stripped form is truthy; any other item is kept unchanged when truthy. -/
def itemKeep : MVal → Option MVal
  | .s t => if (pyStrip t).isEmpty then none else some (.s (pyStrip t))
  | v => if v.truthy then some v else none

mutual

/-- `metadata_key_cleanup(d, k)` acts on the value `d[k]`, possibly deleting
the key.  `cleanupVal v = none` means the key was deleted, `some w` means the
value was replaced by `w` (`backends.py` lines 151-170):
strings are stripped and deleted when empty; lists/tuples are filtered by
`itemKeep` into a list and deleted when empty; dicts are cleaned recursively
key by key (and never deleted); anything else is left alone. -/
def cleanupVal : MVal → Option MVal
  | .s t => if (pyStrip t).isEmpty then none else some (.s (pyStrip t))
  | .lst items =>
    if (items.filterMap itemKeep).isEmpty then none
    else some (.lst (items.filterMap itemKeep))
  | .tup items =>
    if (items.filterMap itemKeep).isEmpty then none
    else some (.lst (items.filterMap itemKeep))
  | .dict es => some (.dict (cleanupMap es))
  | .other b => some (.other b)

/-- `metadata_cleanup` applied to a mapping: run `metadata_key_cleanup` on
every key in order, dropping keys whose cleanup deleted them
(`backends.py` lines 168-175). -/
def cleanupMap : List (String × MVal) → List (String × MVal)
  | [] => []
  | (k, v) :: rest =>
    match cleanupVal v with
    | none => cleanupMap rest
    | some w => (k, w) :: cleanupMap rest

end

theorem itemKeep_idem {x y : MVal} (h : itemKeep x = some y) : itemKeep y = some y := by
  cases x with
  | s t =>
    by_cases he : (pyStrip t).isEmpty
    · simp [itemKeep, he] at h
    · simp [itemKeep, he] at h
      subst h
      simp [itemKeep, pyStrip_pyStrip, he]
  | lst items =>
    by_cases ht : MVal.truthy (.lst items)
    · simp [itemKeep, ht] at h; subst h; simp [itemKeep, ht]
    · simp [itemKeep, ht] at h
  | tup items =>
    by_cases ht : MVal.truthy (.tup items)
    · simp [itemKeep, ht] at h; subst h; simp [itemKeep, ht]
    · simp [itemKeep, ht] at h
  | dict es =>
    by_cases ht : MVal.truthy (.dict es)
    · simp [itemKeep, ht] at h; subst h; simp [itemKeep, ht]
    · simp [itemKeep, ht] at h
  | other b =>
    by_cases ht : MVal.truthy (.other b)
    · simp [itemKeep, ht] at h; subst h; simp [itemKeep, ht]
    · simp [itemKeep, ht] at h

theorem filterMap_itemKeep_idem (l : List MVal) :
    (l.filterMap itemKeep).filterMap itemKeep = l.filterMap itemKeep := by
  induction l with
  | nil => rfl
  | cons x t ih =>
    cases h : itemKeep x with
    | none => simp [List.filterMap_cons, h, ih]
    | some y => simp [List.filterMap_cons, h, itemKeep_idem h, ih]

/-- Joint strong induction: cleaned values are fixed points of cleanup, and
cleaning a mapping twice equals cleaning it once. -/
theorem cleanup_idem_aux : ∀ n : Nat,
    (∀ v : MVal, sizeOf v ≤ n → ∀ w, cleanupVal v = some w → cleanupVal w = some w) ∧
    (∀ es : List (String × MVal), sizeOf es ≤ n →
      cleanupMap (cleanupMap es) = cleanupMap es) := by
  intro n
  induction n using Nat.strong_induction_on with
  | _ n ih =>
    constructor
    · intro v hv w hw
      cases v with
      | s t =>
        by_cases he : (pyStrip t).isEmpty
        · simp [cleanupVal, he] at hw
        · simp [cleanupVal, he] at hw
          subst hw
          simp [cleanupVal, pyStrip_pyStrip, he]
      | lst items =>
        by_cases he : (items.filterMap itemKeep).isEmpty
        · simp [cleanupVal, he] at hw
        · simp [cleanupVal, he] at hw
          subst hw
          simp [cleanupVal, filterMap_itemKeep_idem, he]
      | tup items =>
        by_cases he : (items.filterMap itemKeep).isEmpty
        · simp [cleanupVal, he] at hw
        · simp [cleanupVal, he] at hw
          subst hw
          simp [cleanupVal, filterMap_itemKeep_idem, he]
      | dict es =>
        simp [cleanupVal] at hw
        subst hw
        have hlt : sizeOf es < n := by
          simp at hv
          omega
        simp [cleanupVal]
        exact (ih (sizeOf es) hlt).2 es le_rfl
      | other b =>
        simp [cleanupVal] at hw
        subst hw
        simp [cleanupVal]
    · intro es hes
      cases es with
      | nil => rfl
      | cons kv rest =>
        obtain ⟨k, v⟩ := kv
        have hv : sizeOf v < n := by
          simp at hes
          omega
        have hr : sizeOf rest < n := by
          simp at hes
          omega
        cases h : cleanupVal v with
        | none =>
          simp only [cleanupMap, h]
          exact (ih (sizeOf rest) hr).2 rest le_rfl
        | some w =>
          have hw : cleanupVal w = some w := (ih (sizeOf v) hv).1 v le_rfl w h
          simp only [cleanupMap, h, hw]
          rw [(ih (sizeOf rest) hr).2 rest le_rfl]

/-! ### The claimed post-normalization invariant (C5)

The claim says: at every nesting depth, no mapping key maps to an empty
string, an empty sequence, or a mapping that itself normalized to empty.
`claimMapOK` is that predicate, traversing the full structure. -/

mutual

/-- Traversal part of the claimed invariant: look for mapping entries at any
depth, including inside sequences. -/
def claimValOK : MVal → Bool
  | .s _ => true
  | .lst items => claimItemsOK items
  | .tup items => claimItemsOK items
  | .dict es => claimMapOK es
  | .other _ => true

def claimItemsOK : List MVal → Bool
  | [] => true
  | v :: rest => claimValOK v && claimItemsOK rest

/-- What the claim requires of a value a mapping key maps to: not an empty
string, not an empty sequence, not an empty mapping; and recursively so. -/
def claimEntryOK : MVal → Bool
  | .s t => !t.isEmpty
  | .lst items => !items.isEmpty && claimItemsOK items
  | .tup items => !items.isEmpty && claimItemsOK items
  | .dict es => !es.isEmpty && claimMapOK es
  | .other _ => true

def claimMapOK : List (String × MVal) → Bool
  | [] => true
  | (_, v) :: rest => claimEntryOK v && claimMapOK rest

end

/-- A metadata mapping on which the claimed invariant fails after cleanup:
key `"a"` holds a dict whose only value is whitespace (it normalizes to the
empty dict but is not deleted), and key `"c"` holds a list containing a dict
with an empty-string value (list elements are never recursed into). -/
def c5Input : List (String × MVal) :=
  [("a", .dict [("b", .s [' ', ' '])]),
   ("c", .lst [.dict [("d", .s [])]])]

/-! ### The invariant that actually holds (amended C5)

Along chains of nested mappings, no key maps to an empty string or an empty
sequence; empty mappings are not pruned, and mappings nested inside
sequences are not normalized at all. -/

mutual

def amendValOK : MVal → Bool
  | .s t => !t.isEmpty
  | .lst items => !items.isEmpty
  | .tup items => !items.isEmpty
  | .dict es => amendMapOK es
  | .other _ => true

def amendMapOK : List (String × MVal) → Bool
  | [] => true
  | (_, v) :: rest => amendValOK v && amendMapOK rest

end

theorem cleanup_amend_aux : ∀ n : Nat,
    (∀ v : MVal, sizeOf v ≤ n → ∀ w, cleanupVal v = some w → amendValOK w = true) ∧
    (∀ es : List (String × MVal), sizeOf es ≤ n →
      amendMapOK (cleanupMap es) = true) := by
  intro n
  induction n using Nat.strong_induction_on with
  | _ n ih =>
    constructor
    · intro v hv w hw
      cases v with
      | s t =>
        by_cases he : (pyStrip t).isEmpty
        · simp [cleanupVal, he] at hw
        · simp [cleanupVal, he] at hw
          subst hw
          simp [amendValOK, he]
      | lst items =>
        by_cases he : (items.filterMap itemKeep).isEmpty
        · simp [cleanupVal, he] at hw
        · simp [cleanupVal, he] at hw
          subst hw
          simp [amendValOK, he]
      | tup items =>
        by_cases he : (items.filterMap itemKeep).isEmpty
        · simp [cleanupVal, he] at hw
        · simp [cleanupVal, he] at hw
          subst hw
          simp [amendValOK, he]
      | dict es =>
        simp [cleanupVal] at hw
        subst hw
        have hlt : sizeOf es < n := by
          simp at hv
          omega
        simp [amendValOK]
        exact (ih (sizeOf es) hlt).2 es le_rfl
      | other b =>
        simp [cleanupVal] at hw
        subst hw
        simp [amendValOK]
    · intro es hes
      cases es with
      | nil => rfl
      | cons kv rest =>
        obtain ⟨k, v⟩ := kv
        have hv : sizeOf v < n := by
          simp at hes
          omega
        have hr : sizeOf rest < n := by
          simp at hes
          omega
        cases h : cleanupVal v with
        | none =>
          simp only [cleanupMap, h]
          exact (ih (sizeOf rest) hr).2 rest le_rfl
        | some w =>
          simp only [cleanupMap, h, amendMapOK, Bool.and_eq_true]
          exact ⟨(ih (sizeOf v) hv).1 v le_rfl w h,
                 (ih (sizeOf rest) hr).2 rest le_rfl⟩

/-- C5 (counterexample): the claimed invariant fails: after
`metadata_cleanup`, key `"a"` of `c5Input` maps to a mapping that normalized
to empty (the code's dict branch never deletes keys), and the dict nested
inside the list at key `"c"` still has a key mapping to an empty string. -/
theorem c5_counterexample : claimMapOK (cleanupMap c5Input) = false := by
  decide

/-- C5 (amended): after `metadata_cleanup`, along chains of nested mappings
no key maps to an empty string or an empty sequence; a key may still map to
a mapping that normalized to empty, and mappings nested inside sequences
are untouched. -/
theorem c5_amended_no_empty_values (es : List (String × MVal)) :
    amendMapOK (cleanupMap es) = true :=
  (cleanup_amend_aux (sizeOf es)).2 es le_rfl

/-- C6: metadata normalization is idempotent: cleaning a metadata mapping
twice yields the same structure as cleaning it once. -/
theorem c6_metadata_cleanup_idempotent (es : List (String × MVal)) :
    cleanupMap (cleanupMap es) = cleanupMap es :=
  (cleanup_idem_aux (sizeOf es)).2 es le_rfl

/-! ## The `Reference` value type (`backends.py` lines 76-119) -/

/-- Python exceptions raised by the embedded code. -/
inductive PErr where
  | indexError
  | typeError
  | assertionError
deriving DecidableEq

/-- `Reference(uri, page=0)`: a canonical token plus its origin page. -/
structure Reference where
  ref : String
  page : Nat
deriving DecidableEq

/-- The other operand of `Reference.__eq__`: either a `Reference` or any
non-`Reference` Python object. -/
inductive PyOperand where
  | ref (r : Reference)
  | nonRef

/-- `Reference.__eq__` (`backends.py` lines 110-112): asserts the other
operand is a `Reference` (an `AssertionError` otherwise), then compares
tokens only. -/
def Reference.eqPy (a : Reference) : PyOperand → Except PErr Bool
  | .ref b => .ok (a.ref = b.ref)
  | .nonRef => .error .assertionError

/-- `Reference.__hash__` (`backends.py` lines 107-108): `hash(self.ref)` —
a function of the token only. -/
def Reference.hashPy (a : Reference) : UInt64 := a.ref.hash

/-- C7: two References compare equal iff their tokens are equal (whatever
their origin pages), comparing with a non-Reference raises `AssertionError`
rather than returning `False`, and the hash depends on the token alone. -/
theorem c7_reference_eq_token_only (a b : Reference) :
    (Reference.eqPy a (.ref b) = .ok true ↔ a.ref = b.ref) ∧
    (Reference.eqPy a .nonRef = .error .assertionError) ∧
    (a.ref = b.ref → Reference.hashPy a = Reference.hashPy b) := by
  refine ⟨?_, rfl, ?_⟩
  · simp [Reference.eqPy]
  · intro h
    simp [Reference.hashPy, h]

theorem c7_reference_eq_token_only_witness :
    (Reference.eqPy ⟨"x", 1⟩ (.ref ⟨"x", 2⟩) = .ok true) ∧
    (Reference.eqPy ⟨"x", 1⟩ .nonRef = .error .assertionError) ∧
    (Reference.hashPy ⟨"x", 1⟩ = Reference.hashPy ⟨"x", 2⟩) := by
  obtain ⟨h1, h2, h3⟩ := c7_reference_eq_token_only ⟨"x", 1⟩ ⟨"x", 2⟩
  exact ⟨h1.mpr rfl, h2, h3 rfl⟩

/-! ## Reference queries (`backends.py` lines 122-124 and 180-193) -/

/-- The order used by Python's `sorted` on References via
`Reference.__lt__`: lexicographic on the token. -/
def refLe (a b : Reference) : Prop := a.ref ≤ b.ref

instance : DecidableRel refLe := fun a b =>
  inferInstanceAs (Decidable (a.ref ≤ b.ref))

instance : IsTotal Reference refLe := ⟨fun a b => le_total a.ref b.ref⟩

instance : IsTrans Reference refLe := ⟨fun _ _ _ => le_trans⟩

/-- `maybe_sort(r, s)` (`backends.py` lines 122-124). -/
def maybe_sort (r : List Reference) (s : Bool) : List Reference :=
  if s then List.insertionSort refLe r else r

/-- The result of `get_references_as_dict`: each key is present only when
its source set is non-empty. -/
structure RefDict where
  annot : Option (List String)
  scrape : Option (List String)
deriving DecidableEq

/-- `get_references_as_dict` (`backends.py` lines 180-193): the `annot` key
lists the annotation set's tokens and the `scrape` key the scraped set's
tokens, each optionally sorted, and a key is omitted when its set is empty.
The backend's sets are modelled as duplicate-free lists in iteration
order. -/
def get_references_as_dict (references scraped : List Reference)
    (sort : Bool) : RefDict :=
  { annot := if references.isEmpty then none
             else some ((maybe_sort references sort).map Reference.ref),
    scrape := if scraped.isEmpty then none
              else some ((maybe_sort scraped sort).map Reference.ref) }

theorem sorted_nodup_tokens (l : List Reference)
    (h : (l.map Reference.ref).Nodup) :
    ((List.insertionSort refLe l).map Reference.ref).Sorted (· ≤ ·) ∧
    ((List.insertionSort refLe l).map Reference.ref).Nodup := by
  constructor
  · have hs : List.Sorted refLe (List.insertionSort refLe l) :=
      List.sorted_insertionSort refLe l
    rw [List.Sorted, List.pairwise_map]
    exact hs
  · have hp : List.Perm (List.insertionSort refLe l) l :=
      List.perm_insertionSort refLe l
    exact ((hp.map Reference.ref).nodup_iff).mpr h

/-- C9: with sorting requested, each present key of
`get_references_as_dict` holds a token list sorted lexicographically with
no duplicates (the backend's sets cannot hold two References with the same
token); a key is omitted exactly when its source set is empty, sorted or
not. -/
theorem c9_references_dict_sorted_nodup (references scraped : List Reference)
    (hA : (references.map Reference.ref).Nodup)
    (hS : (scraped.map Reference.ref).Nodup) :
    (∀ l, (get_references_as_dict references scraped true).annot = some l →
       l.Sorted (· ≤ ·) ∧ l.Nodup) ∧
    (∀ l, (get_references_as_dict references scraped true).scrape = some l →
       l.Sorted (· ≤ ·) ∧ l.Nodup) ∧
    (∀ s, (get_references_as_dict references scraped s).annot = none ↔
       references.isEmpty) ∧
    (∀ s, (get_references_as_dict references scraped s).scrape = none ↔
       scraped.isEmpty) := by
  refine ⟨?_, ?_, ?_, ?_⟩
  · intro l hl
    by_cases he : references.isEmpty
    · simp [get_references_as_dict, he] at hl
    · simp [get_references_as_dict, he, maybe_sort] at hl
      subst hl
      exact sorted_nodup_tokens references hA
  · intro l hl
    by_cases he : scraped.isEmpty
    · simp [get_references_as_dict, he] at hl
    · simp [get_references_as_dict, he, maybe_sort] at hl
      subst hl
      exact sorted_nodup_tokens scraped hS
  · intro s
    by_cases he : references.isEmpty <;> simp [get_references_as_dict, he]
  · intro s
    by_cases he : scraped.isEmpty <;> simp [get_references_as_dict, he]

theorem c9_references_dict_sorted_nodup_witness :
    (∀ l, (get_references_as_dict [⟨"b", 1⟩, ⟨"a", 2⟩] [⟨"x", 0⟩] true).annot
        = some l → l.Sorted (· ≤ ·) ∧ l.Nodup) ∧
    (∀ l, (get_references_as_dict [⟨"b", 1⟩, ⟨"a", 2⟩] [⟨"x", 0⟩] true).scrape
        = some l → l.Sorted (· ≤ ·) ∧ l.Nodup) ∧
    (∀ s, (get_references_as_dict [⟨"b", 1⟩, ⟨"a", 2⟩] [⟨"x", 0⟩] s).annot
        = none ↔ List.isEmpty [(⟨"b", 1⟩ : Reference), ⟨"a", 2⟩]) ∧
    (∀ s, (get_references_as_dict [⟨"b", 1⟩, ⟨"a", 2⟩] [⟨"x", 0⟩] s).scrape
        = none ↔ List.isEmpty [(⟨"x", 0⟩ : Reference)]) :=
  c9_references_dict_sorted_nodup [⟨"b", 1⟩, ⟨"a", 2⟩] [⟨"x", 0⟩]
    (by decide) (by decide)

/-! ## The annotation object graph and `resolve_PDFObjRef`
(`backends.py` lines 293-328) -/

/-- True for UTF-8 continuation bytes `0x80..0xBF`. -/
def isCont (b : Fin 256) : Bool := 0x80 ≤ b.val && b.val ≤ 0xBF

/-- Strict UTF-8 decoding as performed by Python's `bytes.decode("utf-8")`:
rejects truncated sequences, stray continuation bytes, overlong encodings,
surrogates and code points beyond `U+10FFFF`. -/
def decodeUtf8 : List (Fin 256) → Option (List Char)
  | [] => some []
  | b :: rest =>
    if b.val ≤ 0x7F then
      (decodeUtf8 rest).map (Char.ofNat b.val :: ·)
    else if b.val ≤ 0xC1 then none
    else if b.val ≤ 0xDF then
      match rest with
      | c :: rest1 =>
        if isCont c then
          (decodeUtf8 rest1).map
            (Char.ofNat ((b.val - 0xC0) * 0x40 + (c.val - 0x80)) :: ·)
        else none
      | [] => none
    else if b.val ≤ 0xEF then
      match rest with
      | c :: d :: rest2 =>
        if isCont c ∧ isCont d then
          if 0x800 ≤ (b.val - 0xE0) * 0x1000 + (c.val - 0x80) * 0x40 + (d.val - 0x80) ∧
             ¬(0xD800 ≤ (b.val - 0xE0) * 0x1000 + (c.val - 0x80) * 0x40 + (d.val - 0x80) ∧
               (b.val - 0xE0) * 0x1000 + (c.val - 0x80) * 0x40 + (d.val - 0x80) ≤ 0xDFFF) then
            (decodeUtf8 rest2).map
              (Char.ofNat ((b.val - 0xE0) * 0x1000 + (c.val - 0x80) * 0x40 + (d.val - 0x80)) :: ·)
          else none
        else none
      | _ => none
    else if b.val ≤ 0xF4 then
      match rest with
      | c :: d :: e :: rest3 =>
        if isCont c ∧ isCont d ∧ isCont e then
          if 0x10000 ≤ (b.val - 0xF0) * 0x40000 + (c.val - 0x80) * 0x1000 +
               (d.val - 0x80) * 0x40 + (e.val - 0x80) ∧
             (b.val - 0xF0) * 0x40000 + (c.val - 0x80) * 0x1000 +
               (d.val - 0x80) * 0x40 + (e.val - 0x80) ≤ 0x10FFFF then
            (decodeUtf8 rest3).map
              (Char.ofNat ((b.val - 0xF0) * 0x40000 + (c.val - 0x80) * 0x1000 +
                (d.val - 0x80) * 0x40 + (e.val - 0x80)) :: ·)
          else none
        else none
      | _ => none
    else none

/-- Python's `bytes.decode("iso-8859-1")`: each byte becomes the code point
of the same value; it never fails. -/
def latin1Decode (bs : List (Fin 256)) : List Char :=
  bs.map (fun b => Char.ofNat b.val)

/-- The decode step of `resolve_PDFObjRef` (`backends.py` lines 313-316):
UTF-8, falling back to Latin-1 on `UnicodeDecodeError`. -/
def pyDecode (bs : List (Fin 256)) : String :=
  match decodeUtf8 bs with
  | some cs => String.mk cs
  | none => String.mk (latin1Decode bs)

/-- Is this byte NUL? -/
def isZeroByte (b : Fin 256) : Bool := b = 0

/-- Python's `bs.rstrip(b'\x00')`: remove every trailing NUL byte. -/
def rstripZeros (bs : List (Fin 256)) : List (Fin 256) :=
  (bs.reverse.dropWhile isZeroByte).reverse

/-- A node of the PDF object graph fed to `resolve_PDFObjRef`: an indirect
reference (carrying the value its `resolve()` returns), a byte string, a
text string, a list, a dictionary, or a non-container scalar such as a
number. -/
inductive PObj where
  | objRef (target : PObj)
  | bytes (bs : List (Fin 256))
  | str (s : String)
  | plist (items : List PObj)
  | pdict (entries : List (String × PObj))
  | num (n : Int)

/-- The Python return value of `resolve_PDFObjRef`: `None`, a `Reference`,
or a list of results (possibly nested). -/
inductive RRes where
  | none
  | ref (r : Reference)
  | list (items : List RRes)

/-- The byte-string branch of `resolve_PDFObjRef` (`backends.py` lines
309-316): `obj_resolved[-1]` raises `IndexError` on empty bytes; when the
last byte is NUL the code runs `rstrip(b'\x00')`; the result is decoded
(UTF-8, falling back to Latin-1) and wrapped in a `Reference` at the
current page by the string case that follows. -/
def decodeBytesRef (p : Nat) (bs : List (Fin 256)) : Except PErr RRes :=
  match bs.getLast? with
  | Option.none => .error .indexError
  | some b =>
    .ok (.ref ⟨pyDecode (if b = 0 then rstripZeros bs else bs), p⟩)

/-- Python dict key membership / lookup on the embedded dictionary. -/
def findKey : List (String × PObj) → String → Option PObj
  | [], _ => Option.none
  | (k, v) :: rest, key => if k = key then some v else findKey rest key

theorem findKey_sizeOf {es : List (String × PObj)} {k : String} {v : PObj}
    (h : findKey es k = some v) : sizeOf v < sizeOf es := by
  induction es with
  | nil => simp [findKey] at h
  | cons kv rest ih =>
    obtain ⟨k2, v2⟩ := kv
    by_cases hk : k2 = k
    · simp [findKey, hk] at h
      subst h
      simp
      omega
    · simp [findKey, hk] at h
      have := ih h
      simp
      omega

mutual

/-- `resolve_PDFObjRef(obj_ref, internal)` (`backends.py` lines 293-328):
a list is resolved elementwise; an indirect reference is dereferenced and
handed to the post-dereference chain; any other node is handed over as-is
when this is a nested call, and produces a logged warning and `None` when
it appears at top level. -/
def resolve_PDFObjRef (p : Nat) : PObj → Bool → Except PErr RRes
  | .plist items, _ => (resolveAll p items).map RRes.list
  | .objRef t, _ => resolveVal p t
  | obj, internal => if internal then resolveVal p obj else .ok RRes.none
termination_by obj _ => (sizeOf obj, 1)
decreasing_by
  all_goals
    first
    | (apply Prod.Lex.right; omega)
    | (apply Prod.Lex.left
       simp
       all_goals
         first
         | omega
         | (have hfk := findKey_sizeOf (by assumption); omega))

/-- The list comprehension `[self.resolve_PDFObjRef(item, True) for item in
obj_ref]`: left to right, the first raised exception aborts it. -/
def resolveAll (p : Nat) : List PObj → Except PErr (List RRes)
  | [] => .ok []
  | h :: t => do
    let r ← resolve_PDFObjRef p h true
    let rs ← resolveAll p t
    .ok (r :: rs)
termination_by l => (sizeOf l, 2)
decreasing_by
  all_goals
    first
    | (apply Prod.Lex.right; omega)
    | (apply Prod.Lex.left
       simp
       all_goals
         first
         | omega
         | (have hfk := findKey_sizeOf (by assumption); omega))

/-- The chain applied to the dereferenced value (`backends.py` lines
309-328).  Byte strings: `obj_resolved[-1]` raises `IndexError` on empty
bytes; a trailing NUL triggers `rstrip(b'\x00')`; then UTF-8 decoding with
Latin-1 fallback, and the resulting text is wrapped in a `Reference` at the
current page.  Text strings are wrapped directly.  Lists recurse
elementwise.  For the remaining cases the code runs `"URI" in obj_resolved`:
dictionary membership for dicts (recursing into `"URI"` and then `"A"`,
else falling through to `None`), and a `TypeError` for values that support
no membership test (numbers, doubly-indirect references). -/
def resolveVal (p : Nat) : PObj → Except PErr RRes
  | .bytes bs => decodeBytesRef p bs
  | .str s => .ok (.ref ⟨s, p⟩)
  | .plist items => (resolveAll p items).map RRes.list
  | .pdict es =>
    match hu : findKey es "URI" with
    | some v => resolve_PDFObjRef p v true
    | Option.none =>
      match ha : findKey es "A" with
      | some v => resolve_PDFObjRef p v true
      | Option.none => .ok RRes.none
  | .objRef _ => .error .typeError
  | .num _ => .error .typeError
termination_by obj => (sizeOf obj, 0)
decreasing_by
  all_goals
    first
    | (apply Prod.Lex.right; omega)
    | (apply Prod.Lex.left
       simp
       all_goals
         first
         | omega
         | (have hfk := findKey_sizeOf (by assumption); omega))

end

/-! ## The per-page annotation collection loop
(`backends.py` lines 244-271) -/

/-- The loop over a resolved annotation list (`backends.py` lines 263-266):
falsy items (`None`, the empty list) are skipped, References are added to
the set, and adding a non-empty nested list to a set raises `TypeError`
(unhashable). -/
def addRefs : List RRes → Except PErr (List Reference)
  | [] => .ok []
  | RRes.none :: t => addRefs t
  | .ref r :: t => (addRefs t).map (r :: ·)
  | .list [] :: t => addRefs t
  | .list (_ :: _) :: _ => .error .typeError

/-- Handling of one page's `page.annots` (`backends.py` lines 259-268): no
annotation list means nothing to do; otherwise the resolver runs at top
level and its result is folded into the reference set. -/
def pageCollect (p : Nat) (annots : Option PObj) : Except PErr (List Reference) :=
  match annots with
  | Option.none => .ok []
  | some a =>
    match resolve_PDFObjRef p a false with
    | .ok (.list items) => addRefs items
    | .ok (.ref r) => .ok [r]
    | .ok .none => .ok []
    | .error e => .error e

/-- The page loop of `PDFMinerBackend.__init__` (`backends.py` lines
244-271): `curpage` is incremented before each page's annotations are
handled, and the `except` clause logs and re-raises, so the first raised
exception aborts the whole document pass. -/
def docPass (p : Nat) : List (Option PObj) → Except PErr (List Reference)
  | [] => .ok []
  | pg :: rest =>
    match pageCollect (p + 1) pg with
    | .error e => .error e
    | .ok rs =>
      match docPass (p + 1) rest with
      | .error e => .error e
      | .ok more => .ok (rs ++ more)

/-- When the last byte is not NUL, `rstrip(b'\x00')` would change
nothing — so the conditional `rstrip` always amounts to removing all
trailing NUL bytes. -/
theorem rstripZeros_last_ne {bs : List (Fin 256)} {b : Fin 256}
    (h : bs.getLast? = some b) (hb : ¬ b = 0) : rstripZeros bs = bs := by
  unfold rstripZeros
  rcases hr : bs.reverse with _ | ⟨x, t⟩
  · rw [List.reverse_eq_nil_iff] at hr
    subst hr
    simp at h
  · have hx : x = b := by
      have hh : bs.reverse.head? = some x := by rw [hr]; rfl
      rw [List.head?_reverse, h] at hh
      exact (Option.some_injective _ hh).symm
    subst hx
    have hdw : List.dropWhile isZeroByte (x :: t) = x :: t := by
      simp [isZeroByte, hb]
    rw [hdw, ← hr, List.reverse_reverse]

/-- Modelled from the spec's words, for comparison only (C3): "strip a
single trailing NUL byte if present" — remove exactly one trailing NUL. -/
def specStripOneNul (bs : List (Fin 256)) : List (Fin 256) :=
  if bs.getLast? = some 0 then bs.dropLast else bs

/-- C3 (counterexample): on the byte string `61 00 00`, the code strips all
trailing NUL bytes and yields a Reference with token `"a"`, whereas
stripping exactly one trailing NUL as claimed would decode to `"a\x00"`. -/
theorem c3_counterexample :
    resolveVal 3 (.bytes [0x61, 0, 0]) = .ok (.ref ⟨"a", 3⟩) ∧
    pyDecode (specStripOneNul [0x61, 0, 0]) = "a\x00" ∧
    ("a\x00" : String) ≠ "a" := by
  refine ⟨?_, by rfl, by decide⟩
  simp only [resolveVal]
  rfl

/-- C3 (amended): for a non-empty dereferenced byte string the resolver
strips *all* trailing NUL bytes (if the last byte is NUL, `rstrip(b'\x00')`
runs), decodes as UTF-8 with Latin-1 as fallback, and wraps the decoded
string in a Reference bound to the current page number. -/
theorem c3_amended_rstrip_all_nuls (p : Nat) (bs : List (Fin 256))
    (h : bs ≠ []) :
    resolveVal p (.bytes bs) = .ok (.ref ⟨pyDecode (rstripZeros bs), p⟩) := by
  simp only [resolveVal]
  unfold decodeBytesRef
  rcases hlast : bs.getLast? with _ | b
  · rw [List.getLast?_eq_none_iff] at hlast
    exact absurd hlast h
  · dsimp only
    by_cases hb : b = 0
    · simp [hb]
    · rw [if_neg hb, rstripZeros_last_ne hlast hb]

theorem c3_amended_rstrip_all_nuls_witness :
    resolveVal 7 (.bytes [0x41, 0]) =
      .ok (.ref ⟨pyDecode (rstripZeros [0x41, 0]), 7⟩) :=
  c3_amended_rstrip_all_nuls 7 [0x41, 0] (by decide)

/-- C4 (counterexample): a node whose dereferenced value is the number `5`
makes the resolver raise `TypeError` (from `"URI" in 5`) instead of
returning `None`. -/
theorem c4_counterexample :
    resolve_PDFObjRef 1 (.objRef (.num 5)) false = .error .typeError ∧
    (Except.error PErr.typeError : Except PErr RRes) ≠ .ok RRes.none := by
  constructor
  · simp only [resolve_PDFObjRef, resolveVal]
  · simp

/-- C4 (amended): when the dereferenced value is a mapping containing
neither `"URI"` nor `"A"`, the resolver returns `None` without raising;
but a dereferenced value that supports no membership test — such as a
number — raises `TypeError` from `"URI" in obj_resolved`, which aborts the
document pass. -/
theorem c4_amended_null_only_for_mappings :
    (∀ (p : Nat) (es : List (String × PObj)),
      findKey es "URI" = Option.none → findKey es "A" = Option.none →
      resolveVal p (.pdict es) = .ok RRes.none) ∧
    (∀ (p : Nat) (n : Int), resolveVal p (.num n) = .error .typeError) := by
  constructor
  · intro p es hU hA
    simp only [resolveVal]
    split
    · simp_all
    · split
      · simp_all
      · rfl
  · intro p n
    simp only [resolveVal]

theorem c4_amended_null_only_for_mappings_witness :
    resolveVal 2 (.pdict [("S", .str "x")]) = .ok RRes.none ∧
    resolveVal 2 (.num 5) = .error .typeError :=
  ⟨c4_amended_null_only_for_mappings.1 2 [("S", .str "x")] rfl rfl,
   c4_amended_null_only_for_mappings.2 2 5⟩

/-- C10: an annotation node that dereferences to an empty byte string makes
`resolve_PDFObjRef` raise `IndexError` (indexing `obj_resolved[-1]`) rather
than return a Reference or `None`, and — as the page loop re-raises — the
error aborts the whole document pass, here shown on a two-page document
whose first page resolves fine. -/
theorem c10_empty_bytes_index_error :
    (∀ p : Nat, resolveVal p (.bytes []) = .error .indexError) ∧
    docPass 0 [some (.plist [.objRef (.str "http://a")]),
               some (.plist [.objRef (.bytes [])])] = .error .indexError := by
  constructor
  · intro p
    simp only [resolveVal]
    rfl
  · simp only [docPass, pageCollect, resolve_PDFObjRef, resolveAll, resolveVal]
    rfl

/-! ## The timed construction pipeline (`__init__.py` lines 112-204) -/

/-- The error kinds raised during `PDFx` construction: the library's
`FileNotFoundError`, `DownloadError`, `PDFReadTimeout`, `PDFTextTimeout`
and `PDFInvalidError`, pdfminer's `PDFSyntaxError` (before it is wrapped),
and Python's built-in `TypeError`. -/
inductive InitErr where
  | fileNotFound (msg : String)
  | downloadError (msg : String)
  | readTimeout
  | textTimeout
  | pdfSyntax (msg : String)
  | pdfInvalid (msg : String)
  | typeError
deriving DecidableEq

/-- A successfully constructed handle: either a full parse, or the
annotation-only degraded retry (which sets `limited = True`). -/
inductive InitOutcome where
  | full
  | degraded
deriving DecidableEq

/-- The parameter names accepted by `PDFMinerBackend.__init__`
(`backends.py` line 212), after `self`. -/
def pdfMinerBackendParams : List String :=
  ["pdf_stream", "password", "pagenos", "maxpages"]

/-- The keyword arguments passed by the degraded retry
`PDFMinerBackend(self.stream, lap=None, annot_only=True)`
(`__init__.py` lines 191-192). -/
def degradedRetryKwargs : List String := ["lap", "annot_only"]

/-- Python call binding: every keyword argument must name a parameter of
the callee, otherwise the call raises `TypeError` for an unexpected
keyword argument. -/
def acceptsKwargs (params kwargs : List String) : Bool :=
  kwargs.all (fun k => params.contains k)

/-- `PDFx.buildStream` (`__init__.py` lines 112-136): for a URL, a fetch
failure raises `DownloadError` wrapping the original cause; for a local
path, a missing file raises `FileNotFoundError`. -/
def buildStream (uri : String) (isUrl fileExists : Bool)
    (fetch : Except String Unit) : Except InitErr Unit :=
  if isUrl then
    match fetch with
    | .ok _ => .ok ()
    | .error cause =>
      .error (.downloadError
        ("Error downloading '" ++ uri ++ "' (" ++ cause ++ ")"))
  else
    if fileExists then .ok ()
    else .error (.fileNotFound
      ("Invalid filename and not an url: '" ++ uri ++ "'"))

/-- The backend-construction phase of `PDFx.__init__` (`__init__.py` lines
176-192), run inside `try/except PDFSyntaxError`.  `parse` is the external
parser's verdict on the stream while constructing `PDFMinerBackend`:
`.error m` models `PDFSyntaxError(m)`.  With a text deadline, `cc` is falsy
when the deadline is non-positive (the code fakes the timeout because of a
stopit bug) or when construction timed out; then either `PDFTextTimeout`
is raised (`limit is None`) or the degraded retry runs — a call that
raises `TypeError` unless its keyword arguments are accepted by
`PDFMinerBackend.__init__`. -/
def textPhase (textTimeout : Option Int) (textTimesOut limitIsNone : Bool)
    (parse : Except String Unit) : Except InitErr InitOutcome :=
  let buildFull : Except InitErr InitOutcome :=
    match parse with
    | .ok _ => .ok .full
    | .error m => .error (.pdfSyntax m)
  match textTimeout with
  | Option.none => buildFull
  | some t =>
    let cc : Bool := if t ≤ 0 then false else !textTimesOut
    if cc then buildFull
    else if limitIsNone then .error .textTimeout
    else if acceptsKwargs pdfMinerBackendParams degradedRetryKwargs then
      .ok .degraded
    else .error .typeError

/-- `PDFx.__init__` (`__init__.py` lines 139-204): the read phase acquires
the stream (with `readTimeout <= 0` the code sets `cc = False` and raises
`PDFReadTimeout` without reading anything; with a positive deadline it
raises only when acquisition actually times out), then the text phase
constructs the backend, with `except PDFSyntaxError` wrapping syntax
errors in `PDFInvalidError`. -/
def pdfxInit (uri : String) (isUrl fileExists : Bool)
    (fetch : Except String Unit)
    (readTimeout : Option Int) (readTimesOut : Bool)
    (textTimeout : Option Int) (textTimesOut : Bool) (limitIsNone : Bool)
    (parse : Except String Unit) : Except InitErr InitOutcome :=
  let readPhase : Except InitErr Unit :=
    match readTimeout with
    | Option.none => buildStream uri isUrl fileExists fetch
    | some t =>
      if t ≤ 0 then .error .readTimeout
      else if readTimesOut then .error .readTimeout
      else buildStream uri isUrl fileExists fetch
  match readPhase with
  | .error e => .error e
  | .ok _ =>
    match textPhase textTimeout textTimesOut limitIsNone parse with
    | .error (.pdfSyntax m) => .error (.pdfInvalid ("Invalid PDF (" ++ m ++ ")"))
    | r => r

/-- C1: the degraded annotation-only retry is broken in this code: the
keyword arguments `lap` and `annot_only` are not parameters of
`PDFMinerBackend.__init__`, so when a text deadline is exceeded and the
caller permitted degradation (`limit` not `None`), construction raises
`TypeError` instead of producing a degraded annotation-only handle. -/
theorem c1_degraded_retry_raises_typeerror :
    acceptsKwargs pdfMinerBackendParams degradedRetryKwargs = false ∧
    pdfxInit "doc.pdf" false true (.ok ()) Option.none false
      (some 5) true false (.ok ()) = .error .typeError := by
  exact ⟨rfl, rfl⟩

/-- C2 (counterexample): a read deadline of `0` is not "no timeout
enforcement" — construction raises `PDFReadTimeout` immediately, even
though stream acquisition would have succeeded with no latency at all. -/
theorem c2_counterexample :
    pdfxInit "doc.pdf" false true (.ok ()) (some 0) false
      Option.none false false (.ok ()) = .error .readTimeout := rfl

/-- C2 (amended): a zero or negative deadline is treated as an *immediate*
timeout: any construction with `readTimeout ≤ 0` raises `PDFReadTimeout`
regardless of actual read latency, and `textTimeout ≤ 0` always takes the
text-timeout path (raising `PDFTextTimeout` when `limit` is `None`). -/
theorem c2_amended_nonpositive_deadline_immediate_timeout :
    (∀ (uri : String) (isUrl fileExists : Bool) (fetch : Except String Unit)
       (t : Int), t ≤ 0 → ∀ (rto : Bool) (tt : Option Int) (tto lin : Bool)
       (parse : Except String Unit),
       pdfxInit uri isUrl fileExists fetch (some t) rto tt tto lin parse
         = .error .readTimeout) ∧
    (∀ (t : Int), t ≤ 0 → ∀ (tto : Bool) (parse : Except String Unit),
       pdfxInit "doc.pdf" false true (.ok ()) Option.none false
         (some t) tto true parse = .error .textTimeout) := by
  constructor
  · intro uri isUrl fileExists fetch t ht rto tt tto lin parse
    simp [pdfxInit, ht]
  · intro t ht tto parse
    simp [pdfxInit, textPhase, buildStream, ht]

theorem c2_amended_nonpositive_deadline_immediate_timeout_witness :
    pdfxInit "a.pdf" true true (.ok ()) (some (-3)) false
      Option.none false false (.ok ()) = .error .readTimeout ∧
    pdfxInit "doc.pdf" false true (.ok ()) Option.none false
      (some 0) false true (.ok ()) = .error .textTimeout :=
  ⟨c2_amended_nonpositive_deadline_immediate_timeout.1 "a.pdf" true true
     (.ok ()) (-3) (by decide) false Option.none false false (.ok ()),
   c2_amended_nonpositive_deadline_immediate_timeout.2 0 (by decide)
     false (.ok ())⟩

/-- C8: each construction-failure cause maps to its own error kind: a
non-existent local path raises `FileNotFoundError`, a failed remote fetch
raises `DownloadError` carrying the original cause, and a stream the
external parser rejects raises `PDFInvalidError` wrapping the syntax
error. -/
theorem c8_error_taxonomy :
    (∀ (uri : String) (fetch parse : Except String Unit),
      pdfxInit uri false false fetch Option.none false Option.none false
        false parse = .error (.fileNotFound
          ("Invalid filename and not an url: '" ++ uri ++ "'"))) ∧
    (∀ (uri cause : String) (fileExists : Bool) (parse : Except String Unit),
      pdfxInit uri true fileExists (.error cause) Option.none false
        Option.none false false parse = .error (.downloadError
          ("Error downloading '" ++ uri ++ "' (" ++ cause ++ ")"))) ∧
    (∀ (uri m : String),
      pdfxInit uri false true (.ok ()) Option.none false Option.none false
        false (.error m)
        = .error (.pdfInvalid ("Invalid PDF (" ++ m ++ ")"))) :=
  ⟨fun _ _ _ => rfl, fun _ _ _ _ => rfl, fun _ _ => rfl⟩

end Pdfx
